import Mathlib

/-!
Verification of the rendering pipeline of go-spook/spook (package `renderer`,
file `renderer.go`, view-model structs in the unnamed layout file).

The Go code is shallowly embedded:
* Go strings are `String`, Go `int` is `Int` (the quantities involved never
  approach 2^63, where Go's fixed-width arithmetic would diverge).
* Filesystem access, the `html/template` engine, the blackfriday markdown
  engine and the tdewolff minifier are external collaborators; they are
  abstracted as an `Env` record of functions.  Writes to the `io.Writer`
  destination are modelled by threading the written bytes as a `String`.
* A Go slice-bounds panic is modelled by returning `none`.
-/

namespace Spook

namespace model

/-- `model.Config`: the fields of the configuration read by the renderer
(`Theme`, `Title`, `Owner`, `Description`, `Pagination`).  The `model`
package itself is not part of the sources; its fields are pinned by their
uses in `renderer.go`. -/
structure Config where
  Theme : String
  Title : String
  Owner : String
  Description : String
  Pagination : Int
deriving DecidableEq

/-- `model.Page`: a page entry (body path, title, excerpt, thumbnail). -/
structure Page where
  Title : String
  Excerpt : String
  Thumbnail : String
  PathField : String
deriving DecidableEq

/-- `model.Post`: a post entry.  `PathField` models the Go field `Path`
(renamed to avoid clashing with the view-model path). -/
structure Post where
  Title : String
  Excerpt : String
  Author : String
  Category : String
  Tags : List String
  CreatedAt : String
  UpdatedAt : String
  Thumbnail : String
  PathField : String
deriving DecidableEq

/-- `model.Group`: a display-ready (name, URL path) pair. -/
structure Group where
  Name : String
  Path : String
deriving DecidableEq

end model

/-! ### Go `path.Clean` / `path.Join` / `filepath.Join`

`renderer.go` builds URL paths with `path.Join` and file paths with
`filepath.Join`; on a Unix separator both are `Clean(strings.Join(elems[i:], "/"))`
where `i` is the first non-empty element.  `Clean` is Go's lexical path
cleaning.  The imperative lazy-buffer algorithm of Go's `path.Clean` is
re-expressed functionally: split on `'/'`, process the components against a
stack (dropping empty and `.` components, letting `..` pop a component —
or be dropped at the root / accumulated at the front of a relative path),
then rejoin. -/

/-- `strings.Split(s, "/")` on character lists. -/
def splitSlash : List Char → List (List Char)
  | [] => [[]]
  | c :: rest =>
    if c = '/' then [] :: splitSlash rest
    else
      match splitSlash rest with
      | [] => [[c]]
      | g :: gs => (c :: g) :: gs

/-- Component processing of Go `path.Clean`.  The first list is the stack of
already-emitted components, most recent first; the second is the remaining
components. -/
def cleanStack (rooted : Bool) : List (List Char) → List (List Char) → List (List Char)
  | stack, [] => stack
  | stack, c :: rest =>
    if c = [] ∨ c = ['.'] then cleanStack rooted stack rest
    else if c = ['.', '.'] then
      match stack with
      | [] => if rooted then cleanStack rooted [] rest else cleanStack rooted [['.', '.']] rest
      | top :: stackRest =>
        if top = ['.', '.'] then cleanStack rooted (c :: stack) rest
        else cleanStack rooted stackRest rest
    else cleanStack rooted (c :: stack) rest

/-- Join components back with `'/'`. -/
def joinSlash : List (List Char) → List Char
  | [] => []
  | [g] => g
  | g :: gs => g ++ '/' :: joinSlash gs

/-- Go `path.Clean` (and `filepath.Clean` on a `'/'` separator). -/
def pathClean (p : String) : String :=
  match p.data with
  | [] => "."
  | c :: _ =>
    let rooted := c = '/'
    let comps := cleanStack rooted [] (splitSlash p.data)
    let body := joinSlash comps.reverse
    if rooted then ⟨'/' :: body⟩
    else if body = [] then "." else ⟨body⟩

/-- Go `strings.Join`. -/
def stringsJoin (sep : String) : List String → String
  | [] => ""
  | [s] => s
  | s :: rest => s ++ sep ++ stringsJoin sep rest

/-- Go `path.Join` (also `filepath.Join` on Unix): drop leading empty
elements, join the rest with `"/"`, clean; all-empty input gives `""`. -/
def pathJoin (elems : List String) : String :=
  match elems.dropWhile (fun e => e.data.isEmpty) with
  | [] => ""
  | rest => pathClean (stringsJoin "/" rest)

/-- A plain path segment: non-empty, without `'/'`, and not one of the
special components `.` and `..`.  `path.Join` keeps such a final segment
verbatim. -/
def isPlainSegment (s : String) : Prop :=
  s.data ≠ [] ∧ '/' ∉ s.data ∧ s.data ≠ ['.'] ∧ s.data ≠ ['.', '.']

instance : DecidablePred isPlainSegment := fun s => by
  unfold isPlainSegment; infer_instance

/-! ### View models (the unnamed layout file of package `renderer`) -/

/-- `ListType` with its three constants `DEFAULT`, `CATEGORY`, `TAG`. -/
inductive ListType where
  | DEFAULT : ListType
  | CATEGORY : ListType
  | TAG : ListType
deriving DecidableEq

/-- `Layout`, the base layout embedded in every view. -/
structure Layout where
  WebsiteTitle : String
  WebsiteOwner : String
  ContentTitle : String
  ContentDesc : String
  ContentAuthor : String
  Pages : List model.Page
deriving DecidableEq

/-- The `List` view struct (named `ListView` here because `List` is taken).
The Go struct embeds `Layout`; the embedding is modelled as the field
`layout`.  `Typ` models the Go field `Type`. -/
structure ListView where
  layout : Layout
  Typ : ListType
  Path : String
  Posts : List model.Post
  Tags : List model.Group
  Categories : List model.Group
  CurrentPage : Int
  MaxPage : Int
deriving DecidableEq

/-- The `Post` view struct (named `PostView` here).  `HTML` is the rendered
body. -/
structure PostView where
  layout : Layout
  CreatedAt : String
  UpdatedAt : String
  Category : model.Group
  Tags : List model.Group
  Thumbnail : String
  HTML : String
  Older : model.Post
  Newer : model.Post
deriving DecidableEq

/-- The data handed to `Template.ExecuteTemplate` by the render entry points
modelled here. -/
inductive ViewData where
  | list : ListView → ViewData
  | post : PostView → ViewData
deriving DecidableEq

/-- A directory entry as returned by `ioutil.ReadDir`. -/
structure DirEntry where
  name : String
  isDir : Bool
deriving DecidableEq

/-- The external collaborators of the renderer, abstracted as functions:
the filesystem (`fileExists`, `readDir`, `readIndexFile`), the repository's
markdown helpers that live outside `renderer.go` (`removeMetadata`,
`highlightCode`), the blackfriday engine (`markdownRun`), the
`html/template` engine (`parseFiles` for `template.ParseFiles` on a list of
template files, `exec` for `ExecuteTemplate`, returning the bytes written
to the writer — possibly partial — and an optional error), and the
tdewolff minifier as configured in `executeTemplate` (`minifyHTML`, again
bytes written plus optional error). -/
structure Env where
  fileExists : String → Bool
  readDir : String → Except String (List DirEntry)
  readIndexFile : String → Except String String
  removeMetadata : String → String
  markdownRun : String → String
  highlightCode : String → String
  parseFiles : List String → Except String Unit
  exec : List String → String → ViewData → String × Option String
  minifyHTML : String → String × Option String

/-- The `Renderer` struct. -/
structure Renderer where
  Config : model.Config
  Pages : List model.Page
  Posts : List model.Post
  Tags : List model.Group
  Categories : List model.Group
  Minimize : Bool
  RootDir : String

/-! ### The helper functions of `renderer.go` -/

/-- `validateConfig` (renderer.go:365-371): fails when no theme is set. -/
def validateConfig (rd : Renderer) : Option String :=
  if rd.Config.Theme = "" then some "No theme specified in configuration file" else none

/-- `getBaseTemplates` (renderer.go:376-395): list the theme directory and
keep the non-directory entries whose name starts with `_` and ends with
`.html`, joined onto the theme directory. -/
def getBaseTemplates (env : Env) (rd : Renderer) : Except String (List String) :=
  let themeDir := pathJoin [rd.RootDir, "theme", rd.Config.Theme]
  match env.readDir themeDir with
  | Except.error e => Except.error e
  | Except.ok items =>
    Except.ok (((items.filter
        (fun i => !i.isDir && i.name.endsWith ".html" && i.name.startsWith "_")).map
        (fun i => pathJoin [themeDir, i.name])))

/-- `getMaxPagination` (renderer.go:397-404):
`int(math.Ceil(float64(len(posts)) / float64(rd.Config.Pagination)))`.
The float64 quotient and `math.Ceil` are modelled by the exact rational
ceiling (float64 is exact on all magnitudes a slice length can reach).
Go's division by `Pagination = 0` produces an infinite/NaN float whose
`int` conversion is undefined behaviour; the model returns `0` there and
every theorem that touches this case assumes `0 < Pagination`. -/
def getMaxPagination (cfg : model.Config) (posts : List model.Post) : Int :=
  ⌈(posts.length : ℚ) / (cfg.Pagination : ℚ)⌉

/-- `getListPosts` (renderer.go:406-418): the page window
`posts[start:end]` with `start := (pageNumber-1)*pageLength` and
`end := min(start+pageLength, len(posts))`.  The slice expression panics
unless `0 ≤ start ≤ end` (after the clamp `end ≤ len(posts) ≤ cap` always
holds); a panic is modelled as `none`. -/
def getListPosts (cfg : model.Config) (posts : List model.Post) (pageNumber : Int) :
    Option (List model.Post) :=
  let nPosts : Int := posts.length
  let pageLength := cfg.Pagination
  let start := (pageNumber - 1) * pageLength
  let stop := start + pageLength
  let stop := if stop > nPosts then nPosts else stop
  if 0 ≤ start ∧ start ≤ stop then
    some ((posts.take stop.toNat).drop start.toNat)
  else
    none

/-- `executeTemplate` (renderer.go:421-441): without minimization, execute
straight into the destination (partial output may be written before an
error); with minimization, execute into a buffer, return any execution
error with the destination untouched, otherwise minify the buffer into the
destination.  Returns (optional error, new destination contents). -/
def executeTemplate (env : Env) (rd : Renderer) (templates : List String) (dst : String)
    (name : String) (data : ViewData) : Option String × String :=
  if !rd.Minimize then
    let r := env.exec templates name data
    (r.2, dst ++ r.1)
  else
    let r := env.exec templates name data
    match r.2 with
    | some e => (some e, dst)
    | none =>
      let m := env.minifyHTML r.1
      (m.2, dst ++ m.1)

/-! ### `RenderList` (renderer.go:113-215) -/

/-- The post filtering of `RenderList` (renderer.go:134-165): `DEFAULT`
takes all posts unfiltered; `CATEGORY` first rewrites the group name
`"uncategorized"` to `""` (the closure `filterCategory` reads the updated
variable) and keeps the posts whose `Category` equals it; any other list
type keeps the posts having the group name among their tags.  Returns the
filtered posts together with the (possibly rewritten) group name. -/
def filterPosts (rd : Renderer) (listType : ListType) (groupName : String) :
    List model.Post × String :=
  if listType = ListType.DEFAULT then (rd.Posts, groupName)
  else if listType = ListType.CATEGORY then
    let g := if groupName = "uncategorized" then "" else groupName
    (rd.Posts.filter (fun post => post.Category = g), g)
  else
    (rd.Posts.filter (fun post => post.Tags.contains groupName), groupName)

/-- The list path of `RenderList` (renderer.go:187-192), computed from the
(already rewritten) group name. -/
def listPath (listType : ListType) (groupName : String) : String :=
  if listType = ListType.CATEGORY then pathJoin ["/category", groupName]
  else if listType = ListType.TAG then pathJoin ["/tag", groupName]
  else "/posts"

/-- The `List` view model built by `RenderList` (renderer.go:179-201).
Go leaves `Tags` and `Categories` at their zero value `nil` there. -/
def listView (rd : Renderer) (listType : ListType) (groupName : String)
    (maxPagination pageNumber : Int) (windowPosts : List model.Post) : ListView :=
  { layout :=
      { WebsiteTitle := rd.Config.Title
        WebsiteOwner := rd.Config.Owner
        ContentTitle := groupName
        ContentDesc := rd.Config.Description
        ContentAuthor := ""
        Pages := rd.Pages }
    Typ := listType
    Path := listPath listType groupName
    Posts := windowPosts
    Tags := []
    Categories := []
    CurrentPage := pageNumber
    MaxPage := maxPagination }

/-- `RenderList` (renderer.go:113-215).  Returns `none` for a slice panic,
otherwise `some ((count, error), destination contents)`: `count` is the
size of the filtered set on success and `-1` otherwise; a requested page
beyond the maximum yields `((-1, none), dst)` — the absence result, no
error, nothing written. -/
def RenderList (env : Env) (rd : Renderer) (listType : ListType) (groupName0 : String)
    (pageNumber0 : Int) (dst : String) : Option ((Int × Option String) × String) :=
  match validateConfig rd with
  | some e => some ((-1, some e), dst)
  | none =>
    let themeDir := pathJoin [rd.RootDir, "theme", rd.Config.Theme]
    let tplList := pathJoin [themeDir, "list.html"]
    if !env.fileExists tplList then some ((-1, some "Template for list is not exist"), dst)
    else
      match getBaseTemplates env rd with
      | Except.error e => some ((-1, some e), dst)
      | Except.ok baseTemplates =>
        let templates := baseTemplates ++ [tplList]
        let pg := filterPosts rd listType groupName0
        let posts := pg.1
        let groupName := pg.2
        let pageNumber := if pageNumber0 < 1 then 1 else pageNumber0
        let maxPagination := getMaxPagination rd.Config posts
        if pageNumber > maxPagination then some ((-1, none), dst)
        else
          match getListPosts rd.Config posts pageNumber with
          | none => none
          | some windowPosts =>
            let list := listView rd listType groupName maxPagination pageNumber windowPosts
            match env.parseFiles templates with
            | Except.error e => some ((-1, some e), dst)
            | Except.ok _ =>
              let r := executeTemplate env rd templates dst "list.html" (ViewData.list list)
              match r.1 with
              | some e => some ((-1, some e), r.2)
              | none => some ((posts.length, none), r.2)

/-! ### `RenderFrontPage` (renderer.go:55-110) -/

/-- The `List` view model built by `RenderFrontPage` (renderer.go:84-101):
page 1 of all posts, path `/posts`, full tag/category group lists; the Go
struct literal leaves `Type` at its zero value `DEFAULT`. -/
def frontPageView (rd : Renderer) (firstPagePosts : List model.Post) : ListView :=
  { layout :=
      { WebsiteTitle := rd.Config.Title
        WebsiteOwner := rd.Config.Owner
        ContentTitle := rd.Config.Title
        ContentDesc := rd.Config.Description
        ContentAuthor := rd.Config.Owner
        Pages := rd.Pages }
    Typ := ListType.DEFAULT
    Path := "/posts"
    Posts := firstPagePosts
    Tags := rd.Tags
    Categories := rd.Categories
    CurrentPage := 1
    MaxPage := getMaxPagination rd.Config rd.Posts }

/-- `RenderFrontPage` (renderer.go:55-110): validate the config, collect
base templates, prefer `frontpage.html`, fall back to `list.html`, fail if
neither exists; then build the front-page list view (page 1, no page-range
check) and execute.  `none` models a slice panic inside `getListPosts`. -/
def RenderFrontPage (env : Env) (rd : Renderer) (dst : String) :
    Option (Option String × String) :=
  match validateConfig rd with
  | some e => some (some e, dst)
  | none =>
    let themeDir := pathJoin [rd.RootDir, "theme", rd.Config.Theme]
    let tplList := pathJoin [themeDir, "list.html"]
    let tplFrontPage := pathJoin [themeDir, "frontpage.html"]
    match getBaseTemplates env rd with
    | Except.error e => some (some e, dst)
    | Except.ok baseTemplates =>
      let sel : Option (String × List String) :=
        if env.fileExists tplFrontPage then
          some ("frontpage.html", baseTemplates ++ [tplFrontPage])
        else if env.fileExists tplList then
          some ("list.html", baseTemplates ++ [tplList])
        else none
      match sel with
      | none => some (some "Template for frontpage and list is not exist", dst)
      | some (activeTemplate, templates) =>
        match getListPosts rd.Config rd.Posts 1 with
        | none => none
        | some firstPagePosts =>
          let frontPage := frontPageView rd firstPagePosts
          match env.parseFiles templates with
          | Except.error e => some (some e, dst)
          | Except.ok _ =>
            some (executeTemplate env rd templates dst activeTemplate
              (ViewData.list frontPage))

/-! ### `RenderPost` (renderer.go:274-362) -/

/-- Lexicographic order on character lists; `lexLe s t` iff the sequence
`s` is at most `t`.  Go compares strings by bytes, and UTF-8 byte order
coincides with code-point order, which is the order on `Char`. -/
def lexLe : List Char → List Char → Bool
  | [], _ => true
  | _ :: _, [] => false
  | a :: as, b :: bs => if a < b then true else if b < a then false else lexLe as bs

/-- The "is not after" relation on groups used to model
`sort.Slice(tags, func(i, j) { return tags[i].Name < tags[j].Name })`
(renderer.go:313-316). -/
def tagGroupLe (a b : model.Group) : Prop := lexLe a.Name.data b.Name.data = true

instance : DecidableRel tagGroupLe := fun a b => by
  unfold tagGroupLe; infer_instance

/-- The tag-to-Group conversion of `RenderPost` (renderer.go:305-311). -/
def mkTagGroup (tag : String) : model.Group :=
  { Name := tag, Path := pathJoin ["/", "tag", tag] }

/-- The sorted tag groups of `RenderPost` (renderer.go:305-316).
`sort.Slice` (an unspecified, non-stable sort) produces *some* permutation
that is non-decreasing under the comparison; since a group is determined by
its name, that permutation is unique as a list, so any correct sort — here
`List.insertionSort` — models it exactly. -/
def postTagGroups (tags : List String) : List model.Group :=
  List.insertionSort tagGroupLe (tags.map mkTagGroup)

/-- The category Group of `RenderPost` (renderer.go:295-303): name is the
raw category; the path is `filepath.Join("/", "category", category)`,
overwritten with `filepath.Join("/", "category", "uncategorized")` when the
name is empty. -/
def postCategoryGroup (category : String) : model.Group :=
  let g : model.Group := { Name := category, Path := pathJoin ["/", "category", category] }
  if g.Name = "" then { g with Path := pathJoin ["/", "category", "uncategorized"] } else g

/-- `RenderPost` (renderer.go:274-362).  Returns (optional error,
destination contents). -/
def RenderPost (env : Env) (rd : Renderer) (post olderPost newerPost : model.Post)
    (dst : String) : Option String × String :=
  match validateConfig rd with
  | some e => (some e, dst)
  | none =>
    let themeDir := pathJoin [rd.RootDir, "theme", rd.Config.Theme]
    let tplPost := pathJoin [themeDir, "post.html"]
    if !env.fileExists tplPost then (some "Template for post is not exist", dst)
    else
      match getBaseTemplates env rd with
      | Except.error e => (some e, dst)
      | Except.ok baseTemplates =>
        let templates := baseTemplates ++ [tplPost]
        let category := postCategoryGroup post.Category
        let tags := postTagGroups post.Tags
        let author := if post.Author = "" then rd.Config.Owner else post.Author
        match env.readIndexFile post.PathField with
        | Except.error e => (some e, dst)
        | Except.ok content =>
          let htmlBody := env.highlightCode (env.markdownRun (env.removeMetadata content))
          let postLayout : PostView :=
            { layout :=
                { WebsiteTitle := rd.Config.Title
                  WebsiteOwner := rd.Config.Owner
                  ContentTitle := post.Title
                  ContentDesc := post.Excerpt
                  ContentAuthor := author
                  Pages := rd.Pages }
              CreatedAt := post.CreatedAt
              UpdatedAt := post.UpdatedAt
              Category := category
              Tags := tags
              Thumbnail := post.Thumbnail
              HTML := htmlBody
              Older := olderPost
              Newer := newerPost }
          match env.parseFiles templates with
          | Except.error e => (some e, dst)
          | Except.ok _ =>
            executeTemplate env rd templates dst "post.html" (ViewData.post postLayout)

/-! ### Concrete sample data, used by the witnesses below -/

/-- A sample post with the given title, category and tags. -/
def samplePost (title category : String) (tags : List String) : model.Post :=
  { Title := title, Excerpt := "", Author := "", Category := category, Tags := tags
    CreatedAt := "", UpdatedAt := "", Thumbnail := "", PathField := "" }

/-- A sample configuration: theme `simple`, page size 2. -/
def sampleConfig : model.Config :=
  { Theme := "simple", Title := "T", Owner := "O", Description := "D", Pagination := 2 }

/-- A sample renderer over three posts (categories "", "news", "news"). -/
def sampleRenderer : Renderer :=
  { Config := sampleConfig
    Pages := []
    Posts := [samplePost "A" "" [], samplePost "B" "news" [], samplePost "C" "news" []]
    Tags := []
    Categories := []
    Minimize := false
    RootDir := "" }

/-- A sample environment in which every file exists, the theme directory is
empty, parsing succeeds, and template execution echoes the template name
and the view-model path (so that the path reaching the engine is observable
in the output). -/
def sampleEnv : Env :=
  { fileExists := fun _ => true
    readDir := fun _ => Except.ok []
    readIndexFile := fun _ => Except.ok ""
    removeMetadata := id
    markdownRun := id
    highlightCode := id
    parseFiles := fun _ => Except.ok ()
    exec := fun _ name data =>
      (match data with
        | ViewData.list l => name ++ ":" ++ l.Path
        | ViewData.post _ => name, none)
    minifyHTML := fun s => (s, none) }

/-- `sampleEnv` without a `frontpage.html` in the theme directory. -/
def sampleEnvNoFront : Env :=
  { sampleEnv with
    fileExists := fun s => !(s == "theme/simple/frontpage.html") }

/-- `sampleEnv` with no template files at all. -/
def sampleEnvNoTpl : Env :=
  { sampleEnv with fileExists := fun _ => false }

/-- `sampleEnv` with a failing template execution. -/
def sampleEnvExecFail : Env :=
  { sampleEnv with exec := fun _ _ _ => ("partial", some "boom") }

/-- The sample renderer with minification enabled. -/
def sampleRendererMin : Renderer :=
  { sampleRenderer with Minimize := true }

/-- The sample renderer with an empty post list. -/
def sampleRendererEmpty : Renderer :=
  { sampleRenderer with Posts := [] }

/-! ### Lemmas about path cleaning -/

lemma splitSlash_no_slash {l : List Char} (h : '/' ∉ l) : splitSlash l = [l] := by
  induction l with
  | nil => rfl
  | cons c rest ih =>
    have hc : c ≠ '/' := fun hc => h (hc ▸ List.mem_cons_self c rest)
    have hr : '/' ∉ rest := fun hm => h (List.mem_cons_of_mem c hm)
    simp [splitSlash, hc, ih hr]

lemma splitSlash_append {l : List Char} (r : List Char) (h : '/' ∉ l) :
    splitSlash (l ++ '/' :: r) = l :: splitSlash r := by
  induction l with
  | nil => simp [splitSlash]
  | cons c rest ih =>
    have hc : c ≠ '/' := fun hc => h (hc ▸ List.mem_cons_self c rest)
    have hr : '/' ∉ rest := fun hm => h (List.mem_cons_of_mem c hm)
    simp [splitSlash, hc, ih hr]

lemma cleanStack_plain (gs : List (List Char)) (stack : List (List Char))
    (h : ∀ g ∈ gs, g ≠ ['.'] ∧ g ≠ ['.', '.']) :
    cleanStack true stack gs = (gs.filter (fun g => !g.isEmpty)).reverse ++ stack := by
  induction gs generalizing stack with
  | nil => simp [cleanStack]
  | cons g gs ih =>
    obtain ⟨h1, h2⟩ := h g (List.mem_cons_self g gs)
    have hrest : ∀ x ∈ gs, x ≠ ['.'] ∧ x ≠ ['.', '.'] :=
      fun x hx => h x (List.mem_cons_of_mem g hx)
    by_cases hg : g = []
    · subst hg
      simp [cleanStack, ih _ hrest]
    · have hcond : ¬(g = [] ∨ g = ['.']) := by simp [hg, h1]
      simp [cleanStack, hcond, h1, h2, hg, ih _ hrest, List.filter_cons]

lemma pathClean_two_seg (a t : List Char) (ha1 : a ≠ []) (ha2 : '/' ∉ a)
    (ha3 : a ≠ ['.']) (ha4 : a ≠ ['.', '.']) (ht1 : t ≠ []) (ht2 : '/' ∉ t)
    (ht3 : t ≠ ['.']) (ht4 : t ≠ ['.', '.']) :
    pathClean ⟨'/' :: (a ++ '/' :: t)⟩ = ⟨'/' :: (a ++ '/' :: t)⟩ := by
  have hsplit : splitSlash ('/' :: (a ++ '/' :: t)) = [[], a, t] := by
    simp [splitSlash, splitSlash_append _ ha2, splitSlash_no_slash ht2]
  have hstack : cleanStack true [] [[], a, t] = [t, a] := by
    rw [cleanStack_plain _ _ (by simp [ha3, ha4, ht3, ht4])]
    simp [List.filter_cons, ha1, ht1]
  simp [pathClean, hsplit, hstack, joinSlash]

lemma pathClean_two_seg_dslash (a t : List Char) (ha1 : a ≠ []) (ha2 : '/' ∉ a)
    (ha3 : a ≠ ['.']) (ha4 : a ≠ ['.', '.']) (ht1 : t ≠ []) (ht2 : '/' ∉ t)
    (ht3 : t ≠ ['.']) (ht4 : t ≠ ['.', '.']) :
    pathClean ⟨'/' :: '/' :: (a ++ '/' :: t)⟩ = ⟨'/' :: (a ++ '/' :: t)⟩ := by
  have hsplit : splitSlash ('/' :: '/' :: (a ++ '/' :: t)) = [[], [], a, t] := by
    simp [splitSlash, splitSlash_append _ ha2, splitSlash_no_slash ht2]
  have hstack : cleanStack true [] [[], [], a, t] = [t, a] := by
    rw [cleanStack_plain _ _ (by simp [ha3, ha4, ht3, ht4])]
    simp [List.filter_cons, ha1, ht1]
  simp [pathClean, hsplit, hstack, joinSlash]

lemma pathJoin_category_plain (g : String) (hg : isPlainSegment g) :
    pathJoin ["/category", g] = "/category/" ++ g := by
  obtain ⟨h1, h2, h3, h4⟩ := hg
  cases g with
  | mk l =>
    show pathClean ⟨'/' :: ("category".data ++ '/' :: l)⟩ = "/category/" ++ ⟨l⟩
    rw [pathClean_two_seg "category".data l (by decide) (by decide) (by decide) (by decide)
      h1 h2 h3 h4]
    rfl

lemma pathJoin_tag_plain (g : String) (hg : isPlainSegment g) :
    pathJoin ["/tag", g] = "/tag/" ++ g := by
  obtain ⟨h1, h2, h3, h4⟩ := hg
  cases g with
  | mk l =>
    show pathClean ⟨'/' :: ("tag".data ++ '/' :: l)⟩ = "/tag/" ++ ⟨l⟩
    rw [pathClean_two_seg "tag".data l (by decide) (by decide) (by decide) (by decide)
      h1 h2 h3 h4]
    rfl

lemma pathJoin_root_category_plain (c : String) (hc : isPlainSegment c) :
    pathJoin ["/", "category", c] = "/category/" ++ c := by
  obtain ⟨h1, h2, h3, h4⟩ := hc
  cases c with
  | mk l =>
    show pathClean ⟨'/' :: '/' :: ("category".data ++ '/' :: l)⟩ = "/category/" ++ ⟨l⟩
    rw [pathClean_two_seg_dslash "category".data l (by decide) (by decide) (by decide)
      (by decide) h1 h2 h3 h4]
    rfl

lemma pathJoin_root_tag_plain (t : String) (ht : isPlainSegment t) :
    pathJoin ["/", "tag", t] = "/tag/" ++ t := by
  obtain ⟨h1, h2, h3, h4⟩ := ht
  cases t with
  | mk l =>
    show pathClean ⟨'/' :: '/' :: ("tag".data ++ '/' :: l)⟩ = "/tag/" ++ ⟨l⟩
    rw [pathClean_two_seg_dslash "tag".data l (by decide) (by decide) (by decide)
      (by decide) h1 h2 h3 h4]
    rfl

/-! ### The lexicographic order used for tag sorting -/

lemma lexLe_total (a b : List Char) : lexLe a b = true ∨ lexLe b a = true := by
  induction a generalizing b with
  | nil => left; rfl
  | cons x xs ih =>
    cases b with
    | nil => right; rfl
    | cons y ys =>
      rcases lt_trichotomy x y with h | h | h
      · left; simp [lexLe, h]
      · subst h
        rcases ih ys with h2 | h2
        · left; simp [lexLe, lt_irrefl, h2]
        · right; simp [lexLe, lt_irrefl, h2]
      · right; simp [lexLe, h]

lemma lexLe_trans {a b c : List Char} (hab : lexLe a b = true) (hbc : lexLe b c = true) :
    lexLe a c = true := by
  induction a generalizing b c with
  | nil => rfl
  | cons x xs ih =>
    cases b with
    | nil => simp [lexLe] at hab
    | cons y ys =>
      cases c with
      | nil => simp [lexLe] at hbc
      | cons z zs =>
        have hyz : ¬ z < y := by
          intro hzy
          simp [lexLe, hzy, asymm hzy] at hbc
        by_cases hxy : x < y
        · have hxz : x < z := lt_of_lt_of_le hxy (not_lt.mp hyz)
          simp [lexLe, hxz]
        · have hyx : ¬ y < x := by
            intro hyx
            simp [lexLe, hyx, asymm hyx] at hab
          have hxey : x = y := le_antisymm (not_lt.mp hyx) (not_lt.mp hxy)
          subst hxey
          by_cases hxz : x < z
          · simp [lexLe, hxz]
          · have hzx : ¬ z < x := by
              intro hzx
              exact hyz hzx
            simp [lexLe, hxy, asymm, hxz, hzx]
            simp [lexLe, hxy, hyx] at hab
            simp [lexLe, hxz, hzx] at hbc
            exact ih hab hbc

lemma tagGroupLe_total : ∀ a b : model.Group, tagGroupLe a b ∨ tagGroupLe b a :=
  fun a b => lexLe_total a.Name.data b.Name.data

lemma tagGroupLe_trans : ∀ a b c : model.Group, tagGroupLe a b → tagGroupLe b c →
    tagGroupLe a c :=
  fun _ _ _ hab hbc => lexLe_trans hab hbc

/-! ### Pagination arithmetic -/

lemma ceilDiv_bounds (n s : ℕ) (hs : 0 < s) :
    n ≤ (n + s - 1) / s * s ∧ (n + s - 1) / s * s + 1 ≤ n + s := by
  have h1 : (n + s - 1) / s * s ≤ n + s - 1 := Nat.div_mul_le_self _ _
  have h2 : n + s - 1 < (n + s - 1) / s * s + s := Nat.lt_div_mul_add hs
  obtain ⟨m, hm⟩ : ∃ m, (n + s - 1) / s * s = m := ⟨_, rfl⟩
  rw [hm] at h1 h2 ⊢
  omega

/-- Evaluation form of `getMaxPagination` for a positive page size: the
rational ceiling equals the integer formula `(N + S - 1) / S`. -/
lemma getMaxPagination_pos_eq (cfg : model.Config) (posts : List model.Post)
    (hS : 0 < cfg.Pagination) :
    getMaxPagination cfg posts =
      (((posts.length + cfg.Pagination.toNat - 1) / cfg.Pagination.toNat : ℕ) : Int) := by
  have hs : 0 < cfg.Pagination.toNat := by omega
  obtain ⟨hb1, hb2⟩ := ceilDiv_bounds posts.length cfg.Pagination.toNat hs
  have hSeq : (cfg.Pagination : ℚ) = (cfg.Pagination.toNat : ℚ) := by
    have h : cfg.Pagination = (cfg.Pagination.toNat : ℤ) :=
      (Int.toNat_of_nonneg (le_of_lt hS)).symm
    conv_lhs => rw [h]
    exact Int.cast_natCast _
  have hsQ : (0 : ℚ) < (cfg.Pagination.toNat : ℚ) := by exact_mod_cast hs
  unfold getMaxPagination
  rw [hSeq, Int.ceil_eq_iff]
  constructor
  · rw [lt_div_iff₀ hsQ, Int.cast_natCast]
    have hb2Q :
        (((posts.length + cfg.Pagination.toNat - 1) / cfg.Pagination.toNat : ℕ) : ℚ) *
            (cfg.Pagination.toNat : ℚ) + 1 ≤
          (posts.length : ℚ) + (cfg.Pagination.toNat : ℚ) := by
      exact_mod_cast hb2
    nlinarith [hb2Q]
  · rw [div_le_iff₀ hsQ]
    exact_mod_cast hb1

/-- On a valid page the window start `(p-1)*S` lies strictly inside the
post list. -/
lemma page_start_lt_length (cfg : model.Config) (posts : List model.Post) (p : Int)
    (hS : 0 < cfg.Pagination) (_hp1 : 1 ≤ p) (hp2 : p ≤ getMaxPagination cfg posts) :
    (p - 1) * cfg.Pagination < (posts.length : Int) := by
  rw [getMaxPagination_pos_eq cfg posts hS] at hp2
  have hs : 0 < cfg.Pagination.toNat := by omega
  obtain ⟨hb1, hb2⟩ := ceilDiv_bounds posts.length cfg.Pagination.toNat hs
  have hsI : ((cfg.Pagination.toNat : ℤ)) = cfg.Pagination := Int.toNat_of_nonneg (by omega)
  have hzs :
      (((posts.length + cfg.Pagination.toNat - 1) / cfg.Pagination.toNat : ℕ) : ℤ) *
          cfg.Pagination + 1 ≤ (posts.length : ℤ) + cfg.Pagination := by
    rw [← hsI]
    exact_mod_cast hb2
  have hmono :
      (p - 1) * cfg.Pagination ≤
        ((((posts.length + cfg.Pagination.toNat - 1) / cfg.Pagination.toNat : ℕ) : ℤ) - 1) *
          cfg.Pagination :=
    mul_le_mul_of_nonneg_right (by omega) (by omega)
  nlinarith [hmono, hzs]

/-- Closed form of `getListPosts` on a valid page: the window is
`drop ((p-1)*S) >>> take S`, and no slice panic occurs. -/
lemma getListPosts_eq (cfg : model.Config) (posts : List model.Post) (p : Int)
    (hS : 0 < cfg.Pagination) (hp1 : 1 ≤ p) (hp2 : p ≤ getMaxPagination cfg posts) :
    getListPosts cfg posts p =
      some ((posts.drop ((p - 1) * cfg.Pagination).toNat).take cfg.Pagination.toNat) := by
  have hlt := page_start_lt_length cfg posts p hS hp1 hp2
  have h0 : 0 ≤ (p - 1) * cfg.Pagination := mul_nonneg (by omega) (by omega)
  unfold getListPosts
  have hcond : 0 ≤ (p - 1) * cfg.Pagination ∧
      (p - 1) * cfg.Pagination ≤
        (if (p - 1) * cfg.Pagination + cfg.Pagination > (posts.length : Int)
          then (posts.length : Int) else (p - 1) * cfg.Pagination + cfg.Pagination) := by
    refine ⟨h0, ?_⟩
    split
    · exact le_of_lt hlt
    · linarith
  rw [if_pos hcond]
  congr 1
  rw [List.drop_take, List.take_eq_take]
  simp only [List.length_drop]
  split
  · omega
  · omega

/-! ### The claims -/

/-- C1: in `RenderList`, a requested page number below 1 is treated as
page 1 (the call behaves exactly like a request for page 1), and a
requested page number exceeding the maximum page count of the filtered set
returns the absence result `(-1, no error)` with nothing written to the
destination (once the call gets past config validation and template
lookup, which precede the page check). -/
theorem renderList_page_clamp_and_absence (env : Env) (rd : Renderer)
    (listType : ListType) (groupName0 : String) (pageNumber0 : Int) (dst : String) :
    (pageNumber0 < 1 →
      RenderList env rd listType groupName0 pageNumber0 dst =
        RenderList env rd listType groupName0 1 dst) ∧
    (rd.Config.Theme ≠ "" →
      env.fileExists
        (pathJoin [pathJoin [rd.RootDir, "theme", rd.Config.Theme], "list.html"]) = true →
      ∀ bts, getBaseTemplates env rd = Except.ok bts →
      pageNumber0 > getMaxPagination rd.Config (filterPosts rd listType groupName0).1 →
      RenderList env rd listType groupName0 pageNumber0 dst = some ((-1, none), dst)) := by
  constructor
  · intro hp
    have h1 : (if pageNumber0 < 1 then (1 : Int) else pageNumber0) = 1 := if_pos hp
    have h2 : (if (1 : Int) < 1 then (1 : Int) else 1) = 1 := by norm_num
    simp only [RenderList, h1, h2]
  · intro hvc hfe bts hbt hgt
    have hvn : validateConfig rd = none := by simp [validateConfig, hvc]
    have hclamp : (if pageNumber0 < 1 then (1 : Int) else pageNumber0) >
        getMaxPagination rd.Config (filterPosts rd listType groupName0).1 := by
      split <;> omega
    simp only [RenderList, hvn, hfe, hbt]
    simp [hclamp]

/-- C1 witness: with the sample data (three posts, page size 2, maximum
page 2), requesting page 0 behaves like page 1, and requesting page 5
yields the absence result with nothing written. -/
theorem renderList_page_clamp_and_absence_witness :
    (RenderList sampleEnv sampleRenderer ListType.DEFAULT "" 0 "" =
      RenderList sampleEnv sampleRenderer ListType.DEFAULT "" 1 "") ∧
    RenderList sampleEnv sampleRenderer ListType.DEFAULT "" 5 "" =
      some ((-1, none), "") := by
  constructor
  · exact (renderList_page_clamp_and_absence sampleEnv sampleRenderer
      ListType.DEFAULT "" 0 "").1 (by decide)
  · refine (renderList_page_clamp_and_absence sampleEnv sampleRenderer
      ListType.DEFAULT "" 5 "").2 (by decide) rfl [] rfl ?_
    rw [getMaxPagination_pos_eq _ _ (by decide)]
    decide

/-- C2: for a positive page size S, the maximum page count equals the
ceiling of N/S — written as the integer formula `(N + S - 1) / S` — and an
empty post list yields maximum page 0. -/
theorem getMaxPagination_is_ceil (cfg : model.Config) (posts : List model.Post)
    (hS : 0 < cfg.Pagination) :
    getMaxPagination cfg posts =
      (((posts.length + cfg.Pagination.toNat - 1) / cfg.Pagination.toNat : ℕ) : Int) ∧
    (posts.length = 0 → getMaxPagination cfg posts = 0) := by
  refine ⟨getMaxPagination_pos_eq cfg posts hS, fun h0 => ?_⟩
  rw [getMaxPagination_pos_eq cfg posts hS, h0]
  have hz : (0 + cfg.Pagination.toNat - 1) / cfg.Pagination.toNat = 0 :=
    Nat.div_eq_of_lt (by omega)
  rw [hz]
  rfl

/-- C2 witness: three posts at page size 2 give maximum page 2, and an
empty list gives maximum page 0. -/
theorem getMaxPagination_is_ceil_witness :
    getMaxPagination sampleConfig sampleRenderer.Posts = 2 ∧
    getMaxPagination sampleConfig [] = 0 := by
  constructor
  · rw [(getMaxPagination_is_ceil sampleConfig sampleRenderer.Posts (by decide)).1]
    decide
  · exact (getMaxPagination_is_ceil sampleConfig [] (by decide)).2 (by decide)

/-- C3: on a valid page p ∈ [1, maxPage] (positive page size S), the page
window is the contiguous slice [(p-1)*S, p*S) clipped to the list length:
it equals `(posts.drop ((p-1)*S)).take S`, its length is
`min S (N - (p-1)*S)`, and the windows of pages p and p+1 concatenate to
the single slice of length 2*S starting at (p-1)*S — adjacent windows are
contiguous and (being successive index ranges) disjoint. -/
theorem getListPosts_window (cfg : model.Config) (posts : List model.Post) (p : Int)
    (hS : 0 < cfg.Pagination) (hp1 : 1 ≤ p) (hp2 : p ≤ getMaxPagination cfg posts) :
    getListPosts cfg posts p =
      some ((posts.drop ((p - 1) * cfg.Pagination).toNat).take cfg.Pagination.toNat) ∧
    ((posts.drop ((p - 1) * cfg.Pagination).toNat).take cfg.Pagination.toNat).length =
      min cfg.Pagination.toNat (posts.length - ((p - 1) * cfg.Pagination).toNat) ∧
    (p + 1 ≤ getMaxPagination cfg posts →
      ∀ w1 w2, getListPosts cfg posts p = some w1 →
        getListPosts cfg posts (p + 1) = some w2 →
        w1 ++ w2 =
          (posts.drop ((p - 1) * cfg.Pagination).toNat).take (2 * cfg.Pagination.toNat)) := by
  refine ⟨getListPosts_eq cfg posts p hS hp1 hp2, ?_, ?_⟩
  · simp [List.length_take, List.length_drop]
  · intro hq w1 w2 hw1 hw2
    rw [getListPosts_eq cfg posts p hS hp1 hp2] at hw1
    rw [getListPosts_eq cfg posts (p + 1) hS (by omega) hq] at hw2
    injection hw1 with h1
    injection hw2 with h2
    subst h1
    subst h2
    have h0 : 0 ≤ (p - 1) * cfg.Pagination := mul_nonneg (by omega) (by omega)
    have hsum : (p + 1 - 1) * cfg.Pagination =
        (p - 1) * cfg.Pagination + cfg.Pagination := by ring
    have hidx : ((p + 1 - 1) * cfg.Pagination).toNat =
        ((p - 1) * cfg.Pagination).toNat + cfg.Pagination.toNat := by
      rw [hsum]
      omega
    rw [hidx, ← List.drop_drop, two_mul, List.take_add]

/-- C3 witness: with three posts and page size 2, page 1 is the first two
posts and pages 1 and 2 concatenate to the whole list. -/
theorem getListPosts_window_witness :
    getListPosts sampleConfig sampleRenderer.Posts 1 =
      some [samplePost "A" "" [], samplePost "B" "news" []] ∧
    [samplePost "A" "" [], samplePost "B" "news" []] ++ [samplePost "C" "news" []] =
      (sampleRenderer.Posts.drop 0).take 4 := by
  have hmax : (2 : Int) ≤ getMaxPagination sampleConfig sampleRenderer.Posts := by
    rw [getMaxPagination_pos_eq _ _ (by decide)]
    decide
  have h := getListPosts_window sampleConfig sampleRenderer.Posts 1 (by decide) (by decide)
    (by omega)
  constructor
  · rw [h.1]
    decide
  · have hcat := h.2.2 (by omega) [samplePost "A" "" [], samplePost "B" "news" []]
      [samplePost "C" "news" []] (by rw [h.1]; decide) (by decide)
    rw [hcat]
    decide

/-- C4: category filtering selects exactly the posts whose category equals
the requested group name, except that the literal group name
"uncategorized" is translated to match the empty category: a post with
category "" is selected for group name "uncategorized", and a post with
category "x" is selected precisely for group name "x". -/
theorem filterPosts_category_spec (rd : Renderer) (g : String) (post : model.Post) :
    (post ∈ (filterPosts rd ListType.CATEGORY g).1 ↔
      post ∈ rd.Posts ∧ post.Category = (if g = "uncategorized" then "" else g)) ∧
    (post ∈ rd.Posts → post.Category = "" →
      post ∈ (filterPosts rd ListType.CATEGORY "uncategorized").1) ∧
    (post.Category = "x" →
      (post ∈ (filterPosts rd ListType.CATEGORY g).1 ↔ post ∈ rd.Posts ∧ g = "x")) := by
  have hmem : ∀ gg : String, post ∈ (filterPosts rd ListType.CATEGORY gg).1 ↔
      post ∈ rd.Posts ∧ post.Category = (if gg = "uncategorized" then "" else gg) := by
    intro gg
    simp [filterPosts, List.mem_filter]
  refine ⟨hmem g, fun hin hcat => ?_, fun hx => ?_⟩
  · exact (hmem "uncategorized").mpr ⟨hin, by simp [hcat]⟩
  · rw [hmem g]
    by_cases hg : g = "uncategorized"
    · subst hg
      have h1 : ("x" : String) ≠ "" := by decide
      have h2 : ("uncategorized" : String) ≠ "x" := by decide
      simp [hx, h1, h2]
    · simp [hg, hx, eq_comm]

/-- C4 witness: with the sample posts, the "news" group selects posts B
and C, the "uncategorized" group selects post A, and post B (category
"news") is not selected for group name "uncategorized". -/
theorem filterPosts_category_spec_witness :
    samplePost "A" "" [] ∈ (filterPosts sampleRenderer ListType.CATEGORY "uncategorized").1 ∧
    samplePost "B" "news" [] ∈ (filterPosts sampleRenderer ListType.CATEGORY "news").1 ∧
    ¬ samplePost "B" "news" [] ∈
        (filterPosts sampleRenderer ListType.CATEGORY "uncategorized").1 := by
  refine ⟨(filterPosts_category_spec sampleRenderer "" (samplePost "A" "" [])).2.1
      (by decide) (by decide), ?_, ?_⟩
  · exact ((filterPosts_category_spec sampleRenderer "news"
      (samplePost "B" "news" [])).1).mpr (by decide)
  · intro hmem
    have h := ((filterPosts_category_spec sampleRenderer "uncategorized"
      (samplePost "B" "news" [])).1).mp hmem
    revert h
    decide

/-- C5 (amended): the canonical path of the `List` view model built by
`RenderList`: `/posts` for the default list; `/category/<name>` for a
category list whose requested name is a plain path segment other than
"uncategorized"; `/category` — not `/category/uncategorized` — for the
uncategorized group, because the group name has already been rewritten to
the empty string when the path is joined; and `/tag/<name>` for a tag list
with a plain-segment name.  (Names that are not plain segments are subject
to `path.Join` cleaning.) -/
theorem listView_path_conventions (rd : Renderer) (g : String)
    (maxPagination pageNumber : Int) (w : List model.Post) :
    ((listView rd ListType.DEFAULT (filterPosts rd ListType.DEFAULT g).2
        maxPagination pageNumber w).Path = "/posts") ∧
    (isPlainSegment g → g ≠ "uncategorized" →
      (listView rd ListType.CATEGORY (filterPosts rd ListType.CATEGORY g).2
        maxPagination pageNumber w).Path = "/category/" ++ g) ∧
    ((listView rd ListType.CATEGORY (filterPosts rd ListType.CATEGORY "uncategorized").2
        maxPagination pageNumber w).Path = "/category") ∧
    (isPlainSegment g →
      (listView rd ListType.TAG (filterPosts rd ListType.TAG g).2
        maxPagination pageNumber w).Path = "/tag/" ++ g) := by
  refine ⟨rfl, fun hg hgu => ?_, rfl, fun hg => ?_⟩
  · have hsnd : (filterPosts rd ListType.CATEGORY g).2 = g := by
      simp [filterPosts, hgu]
    show listPath ListType.CATEGORY (filterPosts rd ListType.CATEGORY g).2 = _
    rw [hsnd]
    show pathJoin ["/category", g] = _
    exact pathJoin_category_plain g hg
  · show listPath ListType.TAG (filterPosts rd ListType.TAG g).2 = _
    show pathJoin ["/tag", g] = _
    exact pathJoin_tag_plain g hg

/-- C5 counterexample: the `RenderList` call for the category list of the
"uncategorized" group (with an echoing template engine making the view
model's path observable in the output) produces the path `/category`,
not `/category/uncategorized` as the claim states. -/
theorem renderList_uncategorized_path_counterexample :
    RenderList sampleEnv sampleRenderer ListType.CATEGORY "uncategorized" 1 "" =
      some ((1, none), "list.html:/category") ∧
    ("list.html:/category" : String) ≠ "list.html:/category/uncategorized" := by
  constructor
  · have hmax : getMaxPagination sampleRenderer.Config
        (filterPosts sampleRenderer ListType.CATEGORY "uncategorized").1 = 1 := by
      rw [getMaxPagination_pos_eq _ _ (by decide)]
      decide
    simp only [RenderList, hmax]
    decide
  · decide

/-- C5 witness: plain category and tag names give `/category/<name>` and
`/tag/<name>`, and the uncategorized group gives `/category`. -/
theorem listView_path_conventions_witness :
    (listView sampleRenderer ListType.CATEGORY
      (filterPosts sampleRenderer ListType.CATEGORY "news").2 1 1 []).Path =
        "/category/news" ∧
    (listView sampleRenderer ListType.TAG
      (filterPosts sampleRenderer ListType.TAG "go").2 1 1 []).Path = "/tag/go" ∧
    (listView sampleRenderer ListType.CATEGORY
      (filterPosts sampleRenderer ListType.CATEGORY "uncategorized").2 1 1 []).Path =
        "/category" := by
  refine ⟨?_, ?_, (listView_path_conventions sampleRenderer "" 1 1 []).2.2.1⟩
  · have h := (listView_path_conventions sampleRenderer "news" 1 1 []).2.1
      (by decide) (by decide)
    rw [h]
    decide
  · have h := (listView_path_conventions sampleRenderer "go" 1 1 []).2.2.2 (by decide)
    rw [h]
    decide

/-- C6: front-page template resolution: when `frontpage.html` exists in
the theme directory it is the template executed; when it is absent but
`list.html` exists, `list.html` is executed instead; when neither exists
the call fails with the template-missing error. -/
theorem renderFrontPage_template_fallback (env : Env) (rd : Renderer) (dst : String)
    (bts : List String) (hvc : rd.Config.Theme ≠ "")
    (hbt : getBaseTemplates env rd = Except.ok bts) :
    (env.fileExists
        (pathJoin [pathJoin [rd.RootDir, "theme", rd.Config.Theme], "frontpage.html"]) = true →
      ∀ w, getListPosts rd.Config rd.Posts 1 = some w →
      env.parseFiles
        (bts ++ [pathJoin [pathJoin [rd.RootDir, "theme", rd.Config.Theme], "frontpage.html"]]) =
          Except.ok () →
      RenderFrontPage env rd dst =
        some (executeTemplate env rd
          (bts ++ [pathJoin [pathJoin [rd.RootDir, "theme", rd.Config.Theme], "frontpage.html"]])
          dst "frontpage.html" (ViewData.list (frontPageView rd w)))) ∧
    (env.fileExists
        (pathJoin [pathJoin [rd.RootDir, "theme", rd.Config.Theme], "frontpage.html"]) = false →
      env.fileExists
        (pathJoin [pathJoin [rd.RootDir, "theme", rd.Config.Theme], "list.html"]) = true →
      ∀ w, getListPosts rd.Config rd.Posts 1 = some w →
      env.parseFiles
        (bts ++ [pathJoin [pathJoin [rd.RootDir, "theme", rd.Config.Theme], "list.html"]]) =
          Except.ok () →
      RenderFrontPage env rd dst =
        some (executeTemplate env rd
          (bts ++ [pathJoin [pathJoin [rd.RootDir, "theme", rd.Config.Theme], "list.html"]])
          dst "list.html" (ViewData.list (frontPageView rd w)))) ∧
    (env.fileExists
        (pathJoin [pathJoin [rd.RootDir, "theme", rd.Config.Theme], "frontpage.html"]) = false →
      env.fileExists
        (pathJoin [pathJoin [rd.RootDir, "theme", rd.Config.Theme], "list.html"]) = false →
      RenderFrontPage env rd dst =
        some (some "Template for frontpage and list is not exist", dst)) := by
  have hvn : validateConfig rd = none := by simp [validateConfig, hvc]
  refine ⟨fun hfp w hw hpf => ?_, fun hfp hfl w hw hpf => ?_, fun hfp hfl => ?_⟩
  · simp only [RenderFrontPage, hvn, hbt, hfp, hw]
    simp [hpf]
  · simp only [RenderFrontPage, hvn, hbt, hfp, hfl, hw]
    simp [hpf]
  · simp only [RenderFrontPage, hvn, hbt, hfp, hfl]
    simp

/-- C6 witness: with every template present the front page executes
`frontpage.html`; without `frontpage.html` it executes `list.html`; with no
templates at all it fails with the template-missing error. -/
theorem renderFrontPage_template_fallback_witness :
    RenderFrontPage sampleEnv sampleRenderer "" = some (none, "frontpage.html:/posts") ∧
    RenderFrontPage sampleEnvNoFront sampleRenderer "" = some (none, "list.html:/posts") ∧
    RenderFrontPage sampleEnvNoTpl sampleRenderer "" =
      some (some "Template for frontpage and list is not exist", "") := by
  refine ⟨?_, ?_, ?_⟩
  · have h := (renderFrontPage_template_fallback sampleEnv sampleRenderer "" []
      (by decide) rfl).1 rfl
      [samplePost "A" "" [], samplePost "B" "news" []] (by decide) rfl
    rw [h]
    decide
  · have h := (renderFrontPage_template_fallback sampleEnvNoFront sampleRenderer "" []
      (by decide) rfl).2.1 (by decide) (by decide)
      [samplePost "A" "" [], samplePost "B" "news" []] (by decide) rfl
    rw [h]
    decide
  · exact (renderFrontPage_template_fallback sampleEnvNoTpl sampleRenderer "" []
      (by decide) rfl).2.2 rfl rfl

/-- C7 (amended): the category Group derived by `RenderPost`: an empty
category yields name "" and path `/category/uncategorized`; a category
that is a plain path segment yields its own name and path
`/category/<name>`.  (Other non-empty categories undergo `path.Join`
cleaning, so their path need not be `/category/<name>` verbatim.) -/
theorem postCategoryGroup_spec (c : String) :
    postCategoryGroup "" = { Name := "", Path := "/category/uncategorized" } ∧
    (isPlainSegment c →
      postCategoryGroup c = { Name := c, Path := "/category/" ++ c }) := by
  refine ⟨by decide, fun hc => ?_⟩
  have hne : c ≠ "" := by
    intro h
    subst h
    exact hc.1 rfl
  simp [postCategoryGroup, hne, pathJoin_root_category_plain c hc]

/-- C7 counterexample: the non-empty category `".."` yields the path `/`,
not `/category/..`, because `filepath.Join` cleans the joined path. -/
theorem postCategoryGroup_counterexample :
    postCategoryGroup ".." = { Name := "..", Path := "/" } ∧
    ("/" : String) ≠ "/category/" ++ ".." := by
  constructor <;> decide

/-- C7 witness: category "" and the plain category "news". -/
theorem postCategoryGroup_spec_witness :
    postCategoryGroup "" = { Name := "", Path := "/category/uncategorized" } ∧
    postCategoryGroup "news" = { Name := "news", Path := "/category/news" } := by
  refine ⟨(postCategoryGroup_spec "").1, ?_⟩
  have h := (postCategoryGroup_spec "news").2 (by decide)
  rw [h]
  decide

/-- C8 (amended): the tag Groups attached by `RenderPost` are sorted by
name in lexicographic (byte) order and are, as a multiset, exactly one
Group per tag; a tag that is a plain path segment yields name t and path
`/tag/<t>`.  (Other tags — e.g. the empty string — undergo `path.Join`
cleaning.) -/
theorem postTagGroups_sorted_spec (tags : List String) :
    List.Sorted tagGroupLe (postTagGroups tags) ∧
    (postTagGroups tags).Perm (tags.map mkTagGroup) ∧
    (∀ t, isPlainSegment t → mkTagGroup t = { Name := t, Path := "/tag/" ++ t }) := by
  haveI : IsTotal model.Group tagGroupLe := ⟨tagGroupLe_total⟩
  haveI : IsTrans model.Group tagGroupLe := ⟨tagGroupLe_trans⟩
  refine ⟨List.sorted_insertionSort _ _, List.perm_insertionSort _ _, fun t ht => ?_⟩
  simp [mkTagGroup, pathJoin_root_tag_plain t ht]

/-- C8 counterexample: the empty tag yields the path `/tag`, not `/tag/`
as the claim's convention `/tag/<t>` demands. -/
theorem postTagGroups_counterexample :
    postTagGroups [""] = [{ Name := "", Path := "/tag" }] ∧
    ("/tag" : String) ≠ "/tag/" ++ "" := by
  constructor <;> decide

/-- C8 witness: tags ["web", "go"] come out sorted by name, and the plain
tag "web" maps to `/tag/web`. -/
theorem postTagGroups_sorted_spec_witness :
    postTagGroups ["web", "go"] = [mkTagGroup "go", mkTagGroup "web"] ∧
    mkTagGroup "web" = { Name := "web", Path := "/tag/web" } := by
  refine ⟨by decide, ?_⟩
  have h := (postTagGroups_sorted_spec []).2.2 "web" (by decide)
  rw [h]
  decide

/-- C9: with minification enabled, `executeTemplate` executes into an
intermediate buffer, so a template-execution error leaves the destination
unchanged and is propagated unmodified; a minification error is likewise
propagated unmodified (with the minifier's own output written). -/
theorem executeTemplate_buffering (env : Env) (rd : Renderer) (templates : List String)
    (dst name : String) (data : ViewData) (hm : rd.Minimize = true) :
    (∀ w e, env.exec templates name data = (w, some e) →
      executeTemplate env rd templates dst name data = (some e, dst)) ∧
    (∀ w mo me, env.exec templates name data = (w, none) →
      env.minifyHTML w = (mo, me) →
      executeTemplate env rd templates dst name data = (me, dst ++ mo)) := by
  constructor
  · intro w e hexec
    simp [executeTemplate, hm, hexec]
  · intro w mo me hexec hmin
    simp [executeTemplate, hm, hexec, hmin]

/-- C9 witness: a failing execution with minification enabled returns the
error and leaves the destination `"untouched"` unchanged. -/
theorem executeTemplate_buffering_witness :
    executeTemplate sampleEnvExecFail sampleRendererMin [] "untouched" "x"
      (ViewData.list (listView sampleRenderer ListType.DEFAULT "" 1 1 [])) =
      (some "boom", "untouched") :=
  (executeTemplate_buffering sampleEnvExecFail sampleRendererMin [] "untouched" "x"
    (ViewData.list (listView sampleRenderer ListType.DEFAULT "" 1 1 [])) rfl).1
    "partial" "boom" rfl

/-- C10: `RenderFrontPage` performs no page-range check: with an empty
post list — and a valid theme, an existing `frontpage.html`, a positive
page size, a parsing engine that succeeds, and no minification — it still
reaches template execution and succeeds, handing the engine a `List` view
model with CurrentPage = 1, MaxPage = 0 (so CurrentPage exceeds MaxPage)
and an empty window; it does not return an absence result or an error. -/
theorem renderFrontPage_no_page_range_check (env : Env) (rd : Renderer) (dst : String)
    (bts : List String) (out : String)
    (hposts : rd.Posts = [])
    (hvc : rd.Config.Theme ≠ "")
    (hS : 0 < rd.Config.Pagination)
    (hbt : getBaseTemplates env rd = Except.ok bts)
    (hfp : env.fileExists
      (pathJoin [pathJoin [rd.RootDir, "theme", rd.Config.Theme], "frontpage.html"]) = true)
    (hpf : env.parseFiles
      (bts ++ [pathJoin [pathJoin [rd.RootDir, "theme", rd.Config.Theme], "frontpage.html"]]) =
        Except.ok ())
    (hexec : env.exec
      (bts ++ [pathJoin [pathJoin [rd.RootDir, "theme", rd.Config.Theme], "frontpage.html"]])
      "frontpage.html" (ViewData.list (frontPageView rd [])) = (out, none))
    (hmin : rd.Minimize = false) :
    RenderFrontPage env rd dst = some (none, dst ++ out) ∧
    (frontPageView rd []).CurrentPage = 1 ∧
    (frontPageView rd []).MaxPage = 0 ∧
    (frontPageView rd []).Posts = [] := by
  have hvn : validateConfig rd = none := by simp [validateConfig, hvc]
  have hw : getListPosts rd.Config rd.Posts 1 = some [] := by
    rw [hposts]
    unfold getListPosts
    simp [hS]
  have hmax : (frontPageView rd []).MaxPage = 0 := by
    show getMaxPagination rd.Config rd.Posts = 0
    rw [hposts]
    unfold getMaxPagination
    simp
  refine ⟨?_, rfl, hmax, rfl⟩
  simp only [RenderFrontPage, hvn, hbt, hfp, hw]
  simp [hpf, executeTemplate, hmin, hexec]

/-- C10 witness: the sample renderer with no posts still renders the front
page, writing the echoed template name and path. -/
theorem renderFrontPage_no_page_range_check_witness :
    RenderFrontPage sampleEnv sampleRendererEmpty "" =
      some (none, "frontpage.html:/posts") ∧
    (frontPageView sampleRendererEmpty []).CurrentPage = 1 ∧
    (frontPageView sampleRendererEmpty []).MaxPage = 0 := by
  have h := renderFrontPage_no_page_range_check sampleEnv sampleRendererEmpty "" []
    "frontpage.html:/posts" rfl (by decide) (by decide) rfl rfl rfl rfl rfl
  exact ⟨h.1, h.2.1, h.2.2.1⟩

end Spook
